import Mathlib

/-!
Shallow embedding of the lottery combination-generation pipeline:
`RandomGenerator` (src/services/random_generator.py),
`DuplicateChecker` (src/services/duplicate_checker.py) and
`SimplifiedPredictionService` (src/services/simplified_prediction_service.py).

Python machine model used throughout:
* Python ints are `Int`.
* `sorted(xs)` / `xs.sort()` is `List.mergeSort` with `≤` (a stable sort,
  like Python's timsort; for integer keys the result is the same).
* A list index access that is out of bounds raises `IndexError`; functions
  whose body can raise are embedded with an `Option` result, `none`
  standing for the raised exception.
* `secrets.SystemRandom().sample(range(1, 46), 6)` is modelled as an input
  stream (a `List` of raw samples) consumed by the generator; the library
  guarantees each raw sample has 6 distinct elements of `[1, 45]`, which
  theorems take as a hypothesis on the stream.
* `datetime.now()` values are `Int` timestamps (seconds); `timedelta(hours=1)`
  is `3600`.
* An async provider call that may raise (`data_service.get_existing_combinations`)
  is an `Except Unit` value supplied per call.
-/

/-- Python `sorted` on an integer list.  On a linear order a sort is
determined extensionally by "sorted ascending" plus "permutation of the
input", so any correct sort embeds Python's; `insertionSort` is used
because it reduces definitionally, which lets concrete instances be
settled by `decide`. -/
def pySorted (l : List Int) : List Int :=
  l.insertionSort (· ≤ ·)

/-- `sorted_combo[i + 1] - sorted_combo[i]` with Python index semantics:
`none` models the `IndexError` raised on an out-of-bounds access. -/
def adjGap (s : List Int) (i : Nat) : Option Int :=
  match s.get? (i + 1), s.get? i with
  | some hi, some lo => some (hi - lo)
  | _, _ => none

/-- One iteration of the rule-1 loop of `is_extreme_pattern`: the state is
`(consecutive_count, max_consecutive)`; on a gap of 1 the code does
`consecutive_count += 1; max_consecutive = max(max_consecutive, consecutive_count + 1)`,
otherwise `consecutive_count = 0`. -/
def runStep (p : Nat × Nat) (g : Int) : Nat × Nat :=
  if g = 1 then (p.1 + 1, max p.2 (p.1 + 2)) else (0, p.2)

/-- The body of `RandomGenerator.is_extreme_pattern` after the five adjacent
gaps of `sorted_combo` have been computed successfully.  Rules 3-5 are
computed on the original `combination` argument, as in the source. -/
def extremeRules (combination : List Int) (g0 g1 g2 g3 g4 : Int) : Bool :=
  -- 1. five or more consecutive numbers
  let mc := ([g0, g1, g2, g3, g4].foldl runStep (0, 0)).2
  if 5 ≤ mc then true
  -- 2. arithmetic progression: len(set(gaps)) == 1 and gaps[0] > 1
  else if [g0, g1, g2, g3, g4].toFinset.card = 1 ∧ 1 < g0 then true
  else
    -- 3. extreme sum
    let total_sum := combination.sum
    if total_sum < 80 ∨ 200 < total_sum then true
    else
      -- 4. all odd or all even
      let odd_count := combination.countP (fun n => decide (n % 2 = 1))
      if odd_count = 0 ∨ odd_count = 6 then true
      else
        -- 5. five or more numbers in one bucket
        let r1 := combination.countP (fun n => decide (1 ≤ n ∧ n ≤ 10))
        let r2 := combination.countP (fun n => decide (11 ≤ n ∧ n ≤ 20))
        let r3 := combination.countP (fun n => decide (21 ≤ n ∧ n ≤ 30))
        let r4 := combination.countP (fun n => decide (31 ≤ n ∧ n ≤ 40))
        let r5 := combination.countP (fun n => decide (41 ≤ n ∧ n ≤ 45))
        if 5 ≤ max r1 (max r2 (max r3 (max r4 r5))) then true
        else false

/-- `RandomGenerator.is_extreme_pattern`.  The rule-1 loop reads
`sorted_combo[i]` and `sorted_combo[i + 1]` for every `i in range(5)`
before anything is returned, so the call raises `IndexError` (here: `none`)
exactly when one of those ten accesses is out of bounds. -/
def is_extreme_pattern (combination : List Int) : Option Bool :=
  let s := pySorted combination
  match adjGap s 0, adjGap s 1, adjGap s 2, adjGap s 3, adjGap s 4 with
  | some g0, some g1, some g2, some g3, some g4 =>
      some (extremeRules combination g0 g1 g2 g3 g4)
  | _, _, _, _, _ => none

/-- Rule 1 as the spec words it: the ascending sort contains a consecutive
run (adjacent difference exactly 1) of length 5 or more. -/
def specRun5 (s : List Int) : Prop :=
  ∃ i < s.length, i + 4 < s.length ∧
    ∀ j < 4, s.getD (i + j + 1) 0 - s.getD (i + j) 0 = 1

/-- Rule 2 as the spec words it: all 5 adjacent gaps of the sorted list are
equal and the common gap is strictly greater than 1. -/
def specArith (s : List Int) : Prop :=
  (∀ i < 5, s.getD (i + 1) 0 - s.getD i 0 = s.getD 1 0 - s.getD 0 0) ∧
    1 < s.getD 1 0 - s.getD 0 0

/-- `isExtremePattern` as the specification states it: the disjunction of the
five rules, evaluated on the ascending sort `s` of the combination. -/
def extremeSpec (combo : List Int) : Prop :=
  let s := pySorted combo
  specRun5 s ∨ specArith s ∨
    (s.sum < 80 ∨ 200 < s.sum) ∨
    ((∀ x ∈ s, x % 2 = 1) ∨ (∀ x ∈ s, x % 2 = 0)) ∨
    (5 ≤ s.countP (fun n => decide (1 ≤ n ∧ n ≤ 10)) ∨
     5 ≤ s.countP (fun n => decide (11 ≤ n ∧ n ≤ 20)) ∨
     5 ≤ s.countP (fun n => decide (21 ≤ n ∧ n ≤ 30)) ∨
     5 ≤ s.countP (fun n => decide (31 ≤ n ∧ n ≤ 40)) ∨
     5 ≤ s.countP (fun n => decide (41 ≤ n ∧ n ≤ 45)))

instance (s : List Int) : Decidable (specRun5 s) := by
  unfold specRun5; infer_instance

instance (s : List Int) : Decidable (specArith s) := by
  unfold specArith; infer_instance

instance (combo : List Int) : Decidable (extremeSpec combo) := by
  unfold extremeSpec; infer_instance

/-- `RandomGenerator.generate_combination`.  The `while True` loop draws
`self.random.sample(range(1, 46), 6)`, sorts it in place, and returns it
unless `is_extreme_pattern` holds.  The randomness is the input stream
`samples`; `none` models both non-termination (stream exhausted) and a
crash of `is_extreme_pattern` on a malformed sample (impossible for real
`random.sample` output). -/
def generate_combination : List (List Int) → Option (List Int × List (List Int))
  | [] => none
  | sample :: rest =>
    let combination := pySorted sample
    match is_extreme_pattern combination with
    | some false => some (combination, rest)
    | some true => generate_combination rest
    | none => none

/-- The mutable fields of `DuplicateChecker`: `_winning_cache` and
`_cache_timestamp`. -/
structure DupState where
  winning_cache : Option (Finset (List Int))
  cache_timestamp : Option Int

/-- `self._cache_ttl = timedelta(hours=1)`, in seconds. -/
def cacheTTL : Int := 3600

/-- The staleness test of `DuplicateChecker._get_winning_combinations`:
`self._winning_cache is None or self._cache_timestamp is None or
now - self._cache_timestamp > self._cache_ttl`. -/
def cache_is_stale (st : DupState) (now : Int) : Bool :=
  match st.winning_cache, st.cache_timestamp with
  | none, _ => true
  | _, none => true
  | some _, some t => decide (cacheTTL < now - t)

/-- `DuplicateChecker._get_winning_combinations`.  `provider` is the outcome
of this call's `data_service.get_existing_combinations()`; an exception
there (`Except.error`) propagates to the caller before either cache field
is assigned.  The `Bool` in the result records whether the provider was
consulted. -/
def get_winning_combinations (st : DupState) (now : Int)
    (provider : Except Unit (Finset (List Int))) :
    Except Unit (Finset (List Int) × DupState × Bool) :=
  if cache_is_stale st now then
    match provider with
    | .error e => .error e
    | .ok combinations => .ok (combinations, ⟨some combinations, some now⟩, true)
  else
    match st.winning_cache with
    | some w => .ok (w, st, false)
    | none => .ok (∅, st, false)  -- unreachable: an empty cache is stale

/-- Observable outcome of one `DuplicateChecker.is_duplicate` call:
the returned boolean, the checker state after the call, whether the
membership test against the winning set was reached, and whether the
external provider was consulted. -/
structure DupResult where
  result : Bool
  state : DupState
  tested : Bool
  fetched : Bool

/-- `DuplicateChecker.is_duplicate`.  The whole body is wrapped in
`try/except`: any exception (in particular a provider failure inside
`_get_winning_combinations`) is caught and turned into `True`. -/
def is_duplicate (combination : List Int) (st : DupState) (now : Int)
    (provider : Except Unit (Finset (List Int))) : DupResult :=
  -- if not combination or len(combination) != 6: return True
  if combination = [] ∨ combination.length ≠ 6 then
    ⟨true, st, false, false⟩
  else
    match get_winning_combinations st now provider with
    | .error _ => ⟨true, st, false, true⟩
    | .ok (winning_combinations, st', fetched) =>
        ⟨decide (pySorted combination ∈ winning_combinations), st', true, fetched⟩

/-- `DuplicateChecker.is_new_combination`: `not await self.is_duplicate(...)`. -/
def is_new_combination (combination : List Int) (st : DupState) (now : Int)
    (provider : Except Unit (Finset (List Int))) : Bool :=
  !(is_duplicate combination st now provider).result

/-- `DuplicateChecker.clear_cache`. -/
def clear_cache (_st : DupState) : DupState :=
  ⟨none, none⟩

/-- `SimplifiedPredictionService.max_retries`. -/
def max_retries : Nat := 100

/-- The external world consumed by one `generate_predictions` call: the raw
sample stream for `generate_combination` and, for each `is_duplicate`
call in order, the `datetime.now()` value and the provider outcome. -/
structure GenEnv where
  samples : List (List Int)
  checks : List (Int × Except Unit (Finset (List Int)))

/-- `SimplifiedPredictionService._generate_single_prediction`, with the
remaining retry budget (`max_retries - retry_count`) as the recursion
fuel.  `some (.error ())` is the `PredictionGenerationError` raised on
budget exhaustion; `none` models a run the finite environment cannot
answer (non-termination of the sampler). -/
def generate_single_aux (generated_combinations : Finset (List Int)) :
    Nat → DupState → GenEnv → Option (Except Unit (List Int × DupState × GenEnv))
  | 0, _, _ => some (.error ())
  | fuel + 1, st, env =>
    match generate_combination env.samples with
    | none => none
    | some (combination, samples') =>
      match env.checks with
      | [] => none
      | (now, provider) :: checks' =>
        let r := is_duplicate combination st now provider
        let env' : GenEnv := ⟨samples', checks'⟩
        if r.result then
          generate_single_aux generated_combinations fuel r.state env'
        else if combination ∈ generated_combinations then
          generate_single_aux generated_combinations fuel r.state env'
        else
          some (.ok (combination, r.state, env'))

/-- `_generate_single_prediction` entered with `retry_count = 0`. -/
def generate_single_prediction (generated_combinations : Finset (List Int))
    (st : DupState) (env : GenEnv) :
    Option (Except Unit (List Int × DupState × GenEnv)) :=
  generate_single_aux generated_combinations max_retries st env

/-- The `for i in range(num_predictions)` loop of `generate_predictions`:
`acc` is the `predictions` list (reversed), `generated_combinations` the
in-batch uniqueness set. -/
def generate_predictions_loop :
    Nat → Finset (List Int) → List (List Int) → DupState → GenEnv →
    Option (Except Unit (List (List Int) × DupState × GenEnv))
  | 0, _, acc, st, env => some (.ok (acc.reverse, st, env))
  | n + 1, generated, acc, st, env =>
    match generate_single_prediction generated st env with
    | none => none
    | some (.error e) => some (.error e)
    | some (.ok (combination, st', env')) =>
        generate_predictions_loop n (insert combination generated)
          (combination :: acc) st' env'

/-- A Python value passed as `num_predictions`: an actual `int`, or a value
of any other type (which `isinstance(num_predictions, int)` rejects). -/
inductive PyCount where
  | int (n : Int)
  | nonInt
  deriving DecidableEq, Repr

/-- The two error types `generate_predictions` can raise. -/
inductive PredError where
  | validation
  | generation
  deriving DecidableEq, Repr

/-- `SimplifiedPredictionService.generate_predictions`.  Validation runs
before any sampling or provider access; the body's `try/except` re-raises
`PredictionGenerationError` unchanged and wraps any other exception in a
new `PredictionGenerationError`. -/
def generate_predictions (num_predictions : PyCount) (st : DupState)
    (env : GenEnv) :
    Option (Except PredError (List (List Int) × DupState × GenEnv)) :=
  match num_predictions with
  | .nonInt => some (.error .validation)
  | .int n =>
    if ¬(1 ≤ n ∧ n ≤ 20) then some (.error .validation)
    else
      match generate_predictions_loop n.toNat ∅ [] st env with
      | none => none
      | some (.error _) => some (.error .generation)
      | some (.ok r) => some (.ok r)

/-- A raw output of `secrets.SystemRandom().sample(range(1, 46), 6)`:
6 pairwise-distinct numbers of `[1, 45]`. -/
def validSample (s : List Int) : Prop :=
  s.length = 6 ∧ s.Nodup ∧ ∀ x ∈ s, 1 ≤ x ∧ x ≤ 45

/-- The structural invariant of a generated `Combination`: exactly 6
pairwise-distinct values of `[1, 45]`, sorted ascending. -/
def validCombo (c : List Int) : Prop :=
  c.length = 6 ∧ c.Nodup ∧ (∀ x ∈ c, 1 ≤ x ∧ x ≤ 45) ∧ c.Sorted (· ≤ ·)

instance (s : List Int) : Decidable (validSample s) := by
  unfold validSample; infer_instance

instance (c : List Int) : Decidable (validCombo c) := by
  unfold validCombo; infer_instance

theorem pySorted_perm (l : List Int) : (pySorted l).Perm l :=
  List.perm_insertionSort _ l

theorem pySorted_sorted (l : List Int) : (pySorted l).Sorted (· ≤ ·) :=
  List.sorted_insertionSort _ l

theorem pySorted_length (l : List Int) : (pySorted l).length = l.length :=
  (pySorted_perm l).length_eq

theorem pySorted_mem {x : Int} {l : List Int} : x ∈ pySorted l ↔ x ∈ l :=
  (pySorted_perm l).mem_iff

theorem pySorted_nodup {l : List Int} (h : l.Nodup) : (pySorted l).Nodup :=
  ((pySorted_perm l).nodup_iff).mpr h

theorem pySorted_sum (l : List Int) : (pySorted l).sum = l.sum :=
  (pySorted_perm l).sum_eq

theorem pySorted_countP (l : List Int) (p : Int → Bool) :
    (pySorted l).countP p = l.countP p :=
  (pySorted_perm l).countP_eq p

theorem pySorted_eq_self {l : List Int} (h : l.Sorted (· ≤ ·)) :
    pySorted l = l :=
  List.eq_of_perm_of_sorted (pySorted_perm l) (pySorted_sorted l) h

theorem pySorted_idem (l : List Int) : pySorted (pySorted l) = pySorted l :=
  pySorted_eq_self (pySorted_sorted l)

theorem pySorted_perm_congr {a b : List Int} (h : a.Perm b) :
    pySorted a = pySorted b :=
  List.eq_of_perm_of_sorted ((pySorted_perm a).trans (h.trans (pySorted_perm b).symm))
    (pySorted_sorted a) (pySorted_sorted b)

theorem validSample_pySorted {s : List Int} (h : validSample s) :
    validCombo (pySorted s) := by
  obtain ⟨hlen, hnd, hmem⟩ := h
  exact ⟨(pySorted_length s).trans hlen, pySorted_nodup hnd,
    fun x hx => hmem x (pySorted_mem.mp hx), pySorted_sorted s⟩

theorem adjGap_eq_some {s : List Int} {i : Nat} (h : i + 1 < s.length) :
    adjGap s i = some (s.get ⟨i + 1, h⟩ - s.get ⟨i, Nat.lt_of_succ_lt h⟩) := by
  unfold adjGap
  rw [List.get?_eq_get h, List.get?_eq_get (Nat.lt_of_succ_lt h)]

theorem adjGap_last_none {s : List Int} (h : s.length < 6) :
    adjGap s 4 = none := by
  unfold adjGap
  rw [List.get?_eq_none.mpr (by omega)]

/-- C10: `is_extreme_pattern` is total only for inputs with at least 6
elements: with 6 or more elements every index access is in bounds and a
boolean is returned; with fewer than 6 elements the rule-1 loop raises
`IndexError` (`none`), whereas `is_duplicate` answers `true` for the same
malformed lengths. -/
theorem spec_C10_extreme_pattern_totality :
    (∀ combo : List Int, 6 ≤ combo.length → (is_extreme_pattern combo).isSome = true) ∧
    (∀ combo : List Int, combo.length < 6 → is_extreme_pattern combo = none) ∧
    (∀ (combo : List Int) (st : DupState) (now : Int)
        (provider : Except Unit (Finset (List Int))), combo.length < 6 →
      (is_duplicate combo st now provider).result = true) := by
  refine ⟨fun combo h => ?_, fun combo h => ?_, fun combo st now provider h => ?_⟩
  · have hl : 6 ≤ (pySorted combo).length := by rw [pySorted_length]; exact h
    have e0 := adjGap_eq_some (s := pySorted combo) (i := 0) (by omega)
    have e1 := adjGap_eq_some (s := pySorted combo) (i := 1) (by omega)
    have e2 := adjGap_eq_some (s := pySorted combo) (i := 2) (by omega)
    have e3 := adjGap_eq_some (s := pySorted combo) (i := 3) (by omega)
    have e4 := adjGap_eq_some (s := pySorted combo) (i := 4) (by omega)
    simp [is_extreme_pattern, e0, e1, e2, e3, e4]
  · have hl : (pySorted combo).length < 6 := by rw [pySorted_length]; exact h
    have e4 := adjGap_last_none hl
    rcases e0 : adjGap (pySorted combo) 0 with _ | g0 <;>
      rcases e1 : adjGap (pySorted combo) 1 with _ | g1 <;>
        rcases e2 : adjGap (pySorted combo) 2 with _ | g2 <;>
          rcases e3 : adjGap (pySorted combo) 3 with _ | g3 <;>
            simp [is_extreme_pattern, e0, e1, e2, e3, e4]
  · have hm : combo = [] ∨ combo.length ≠ 6 := Or.inr (by omega)
    simp [is_duplicate, hm]

/-- Witness for C10 at concrete inputs. -/
theorem spec_C10_extreme_pattern_totality_witness :
    (is_extreme_pattern [7, 14, 23, 28, 35, 42]).isSome = true ∧
    is_extreme_pattern [1, 2, 3] = none ∧
    (is_duplicate [1, 2, 3] ⟨none, none⟩ 0 (.error ())).result = true :=
  ⟨spec_C10_extreme_pattern_totality.1 [7, 14, 23, 28, 35, 42] (by decide),
   spec_C10_extreme_pattern_totality.2.1 [1, 2, 3] (by decide),
   spec_C10_extreme_pattern_totality.2.2 [1, 2, 3] ⟨none, none⟩ 0 (.error ()) (by decide)⟩

/-- C8: for any input whose length is not 6 (the empty input included),
`is_duplicate` returns `true`, leaves the cache untouched, performs no
membership test and never consults the provider, whatever the cache
state. -/
theorem spec_C8_malformed_input_rejected :
    ∀ (combo : List Int) (st : DupState) (now : Int)
      (provider : Except Unit (Finset (List Int))), combo.length ≠ 6 →
      is_duplicate combo st now provider = ⟨true, st, false, false⟩ := by
  intro combo st now provider h
  unfold is_duplicate
  rw [if_pos (Or.inr h)]

/-- Witness for C8 on the empty input. -/
theorem spec_C8_malformed_input_rejected_witness :
    is_duplicate [] ⟨none, none⟩ 0 (.ok ∅) = ⟨true, ⟨none, none⟩, false, false⟩ :=
  spec_C8_malformed_input_rejected [] ⟨none, none⟩ 0 (.ok ∅) (by decide)

/-- C7: when the provider raises during an `is_duplicate` query (it was
consulted, and its outcome is an exception), `is_duplicate` returns `true`;
being a total function of its inputs, it propagates no exception. -/
theorem spec_C7_provider_failure_failsafe :
    ∀ (combo : List Int) (st : DupState) (now : Int),
      (is_duplicate combo st now (.error ())).fetched = true →
      (is_duplicate combo st now (.error ())).result = true := by
  intro combo st now h
  by_cases hm : combo = [] ∨ combo.length ≠ 6
  · simp [is_duplicate, hm]
  · unfold is_duplicate at h ⊢
    rw [if_neg hm] at h ⊢
    unfold get_winning_combinations at h ⊢
    by_cases hs : cache_is_stale st now
    · simp [hs]
    · rcases hw : st.winning_cache with _ | w <;> simp [hs, hw] at h

/-- Witness for C7: empty cache, so the query consults the failing provider. -/
theorem spec_C7_provider_failure_failsafe_witness :
    (is_duplicate [7, 14, 23, 28, 35, 42] ⟨none, none⟩ 0 (.error ())).result = true :=
  spec_C7_provider_failure_failsafe [7, 14, 23, 28, 35, 42] ⟨none, none⟩ 0 (by decide)

/-- C6: a fresh cache (age at most the TTL) answers the query without the
provider and without touching either cache field; an empty or expired cache
makes a successful query fetch the snapshot and replace both fields
wholesale. Stated for `_get_winning_combinations` and lifted to the
enclosing `is_duplicate` query. -/
theorem spec_C6_cache_ttl_discipline :
    (∀ (w : Finset (List Int)) (t now : Int)
        (provider : Except Unit (Finset (List Int))),
        now - t ≤ cacheTTL →
        get_winning_combinations ⟨some w, some t⟩ now provider =
          .ok (w, ⟨some w, some t⟩, false)) ∧
    (∀ (st : DupState) (now : Int) (snapshot : Finset (List Int)),
        (st.winning_cache = none ∨ st.cache_timestamp = none ∨
          ∃ t, st.cache_timestamp = some t ∧ cacheTTL < now - t) →
        get_winning_combinations st now (.ok snapshot) =
          .ok (snapshot, ⟨some snapshot, some now⟩, true)) ∧
    (∀ (combo : List Int) (w : Finset (List Int)) (t now : Int)
        (provider : Except Unit (Finset (List Int))),
        combo.length = 6 → now - t ≤ cacheTTL →
        (is_duplicate combo ⟨some w, some t⟩ now provider).state = ⟨some w, some t⟩ ∧
        (is_duplicate combo ⟨some w, some t⟩ now provider).fetched = false) ∧
    (∀ (combo : List Int) (st : DupState) (now : Int) (snapshot : Finset (List Int)),
        combo.length = 6 →
        (st.winning_cache = none ∨ st.cache_timestamp = none ∨
          ∃ t, st.cache_timestamp = some t ∧ cacheTTL < now - t) →
        (is_duplicate combo st now (.ok snapshot)).state = ⟨some snapshot, some now⟩ ∧
        (is_duplicate combo st now (.ok snapshot)).fetched = true) := by
  have fresh : ∀ (w : Finset (List Int)) (t now : Int)
      (provider : Except Unit (Finset (List Int))),
      now - t ≤ cacheTTL →
      get_winning_combinations ⟨some w, some t⟩ now provider =
        .ok (w, ⟨some w, some t⟩, false) := by
    intro w t now provider hle
    have hs : cache_is_stale ⟨some w, some t⟩ now = false := by
      simp [cache_is_stale]; omega
    simp [get_winning_combinations, hs]
  have stale : ∀ (st : DupState) (now : Int) (snapshot : Finset (List Int)),
      (st.winning_cache = none ∨ st.cache_timestamp = none ∨
        ∃ t, st.cache_timestamp = some t ∧ cacheTTL < now - t) →
      get_winning_combinations st now (.ok snapshot) =
        .ok (snapshot, ⟨some snapshot, some now⟩, true) := by
    intro st now snapshot h
    obtain ⟨wc, ts⟩ := st
    have hs : cache_is_stale ⟨wc, ts⟩ now = true := by
      rcases h with h | h | ⟨t, ht, hlt⟩
      · simp only at h; subst h; cases ts <;> rfl
      · simp only at h; subst h; cases wc <;> rfl
      · simp only at ht
        subst ht
        cases wc with
        | none => rfl
        | some w => simp only [cache_is_stale, decide_eq_true_eq]; omega
    simp [get_winning_combinations, hs]
  have nomal : ∀ combo : List Int, combo.length = 6 →
      ¬(combo = [] ∨ combo.length ≠ 6) := by
    rintro combo h6 (rfl | hne)
    · simp at h6
    · exact hne h6
  refine ⟨fresh, stale, ?_, ?_⟩
  · intro combo w t now provider h6 hle
    unfold is_duplicate
    rw [if_neg (nomal combo h6), fresh w t now provider hle]
    exact ⟨rfl, rfl⟩
  · intro combo st now snapshot h6 h
    unfold is_duplicate
    rw [if_neg (nomal combo h6), stale st now snapshot h]
    exact ⟨rfl, rfl⟩

/-- Witness for C6 at concrete inputs: a fresh and an expired cache. -/
theorem spec_C6_cache_ttl_discipline_witness :
    get_winning_combinations ⟨some ∅, some 0⟩ 3600 (.error ()) =
      .ok (∅, ⟨some ∅, some 0⟩, false) ∧
    get_winning_combinations ⟨some ∅, some 0⟩ 3601 (.ok {[1, 2, 3, 4, 5, 6]}) =
      .ok ({[1, 2, 3, 4, 5, 6]}, ⟨some {[1, 2, 3, 4, 5, 6]}, some 3601⟩, true) :=
  ⟨spec_C6_cache_ttl_discipline.1 ∅ 0 3600 (.error ()) (by decide),
   spec_C6_cache_ttl_discipline.2.1 ⟨some ∅, some 0⟩ 3601 {[1, 2, 3, 4, 5, 6]}
     (Or.inr (Or.inr ⟨0, rfl, by decide⟩))⟩

/-- C9: `is_duplicate` is order independent (same multiset, same cache
state, same answer); for a 6-element input its boolean is exactly
membership of the sorted combination in the winning set obtained by
`_get_winning_combinations`; and with historical set containing only
`(1,2,3,4,5,6)`, the reversed input is a duplicate. -/
theorem spec_C9_order_independence :
    (∀ (a b : List Int) (st : DupState) (now : Int)
        (provider : Except Unit (Finset (List Int))),
        a.length = 6 → b.length = 6 → a.Perm b →
        is_duplicate a st now provider = is_duplicate b st now provider) ∧
    (∀ (combo : List Int) (st : DupState) (now : Int)
        (provider : Except Unit (Finset (List Int)))
        (w : Finset (List Int)) (st' : DupState) (f : Bool),
        combo.length = 6 →
        get_winning_combinations st now provider = .ok (w, st', f) →
        (is_duplicate combo st now provider).result = decide (pySorted combo ∈ w)) ∧
    (is_duplicate [6, 5, 4, 3, 2, 1] ⟨some {[1, 2, 3, 4, 5, 6]}, some 0⟩ 0
        (.ok ∅)).result = true := by
  have nomal : ∀ combo : List Int, combo.length = 6 →
      ¬(combo = [] ∨ combo.length ≠ 6) := by
    rintro combo h6 (rfl | hne)
    · simp at h6
    · exact hne h6
  refine ⟨?_, ?_, by decide⟩
  · intro a b st now provider ha hb hab
    unfold is_duplicate
    rw [if_neg (nomal a ha), if_neg (nomal b hb), pySorted_perm_congr hab]
  · intro combo st now provider w st' f h6 hget
    unfold is_duplicate
    rw [if_neg (nomal combo h6), hget]

/-- Witness for C9: the two orderings of the same six numbers, concretely. -/
theorem spec_C9_order_independence_witness :
    is_duplicate [6, 5, 4, 3, 2, 1] ⟨none, none⟩ 0 (.ok ∅) =
      is_duplicate [1, 2, 3, 4, 5, 6] ⟨none, none⟩ 0 (.ok ∅) :=
  spec_C9_order_independence.1 [6, 5, 4, 3, 2, 1] [1, 2, 3, 4, 5, 6]
    ⟨none, none⟩ 0 (.ok ∅) (by decide) (by decide) (by decide)

/-- C5: `generate_predictions` raises `ValidationError` — for every cache
state and every environment, so before any sampling or provider access —
exactly when the count is not an integer or is an integer outside
`[1, 20]`. -/
theorem spec_C5_count_validation :
    ∀ (count : PyCount) (st : DupState) (env : GenEnv),
      generate_predictions count st env = some (.error .validation) ↔
        (count = .nonInt ∨ ∃ n : Int, count = .int n ∧ ¬(1 ≤ n ∧ n ≤ 20)) := by
  intro count st env
  cases count with
  | nonInt => simp [generate_predictions]
  | int n =>
    by_cases h : 1 ≤ n ∧ n ≤ 20
    · simp only [generate_predictions]
      rw [if_neg (not_not_intro h)]
      rcases hr : generate_predictions_loop n.toNat ∅ [] st env with _ | r
      · simp [h]
      · rcases r with e | ok <;> simp [h]
    · simp only [generate_predictions]
      rw [if_pos h]
      exact ⟨fun _ => Or.inr ⟨n, rfl, h⟩, fun _ => rfl⟩

/-- Witness for C5: `generate(21)` is a validation error, by the theorem. -/
theorem spec_C5_count_validation_witness :
    generate_predictions (.int 21) ⟨none, none⟩ ⟨[], []⟩ = some (.error .validation) :=
  (spec_C5_count_validation (.int 21) ⟨none, none⟩ ⟨[], []⟩).mpr
    (Or.inr ⟨21, rfl, by decide⟩)

theorem generate_combination_ok :
    ∀ (samples : List (List Int)) (combo : List Int) (rest : List (List Int)),
      generate_combination samples = some (combo, rest) →
      (∀ s ∈ samples, validSample s) →
      validCombo combo ∧ is_extreme_pattern combo = some false ∧
        rest.Sublist samples := by
  intro samples
  induction samples with
  | nil => intro combo rest h _; simp [generate_combination] at h
  | cons s t ih =>
    intro combo rest h hv
    simp only [generate_combination] at h
    rcases he : is_extreme_pattern (pySorted s) with _ | b
    · rw [he] at h; simp at h
    · rw [he] at h
      cases b with
      | true =>
        obtain ⟨hc, hx, hsub⟩ :=
          ih combo rest h (fun u hu => hv u (List.mem_cons_of_mem s hu))
        exact ⟨hc, hx, hsub.trans (List.sublist_cons_self s t)⟩
      | false =>
        rw [Option.some.injEq, Prod.mk.injEq] at h
        obtain ⟨rfl, rfl⟩ := h
        exact ⟨validSample_pySorted (hv s (List.mem_cons_self s t)), he,
          List.sublist_cons_self s t⟩

theorem is_duplicate_ok_inv {H : Finset (List Int)} (combo : List Int)
    (st : DupState) (now : Int)
    (hst : st.winning_cache = none ∨ st.winning_cache = some H) :
    ((is_duplicate combo st now (.ok H)).state.winning_cache = none ∨
      (is_duplicate combo st now (.ok H)).state.winning_cache = some H) ∧
    ((is_duplicate combo st now (.ok H)).result = false → pySorted combo ∉ H) := by
  obtain ⟨wc, ts⟩ := st
  unfold is_duplicate
  by_cases hm : combo = [] ∨ combo.length ≠ 6
  · rw [if_pos hm]
    exact ⟨hst, by simp⟩
  · rw [if_neg hm]
    unfold get_winning_combinations
    by_cases hs : cache_is_stale ⟨wc, ts⟩ now
    · rw [if_pos hs]
      exact ⟨Or.inr rfl, by simp⟩
    · rw [if_neg hs]
      rcases hw : wc with _ | w
      · exfalso
        apply hs
        subst hw
        cases ts <;> rfl
      · have hwH : w = H := by
          rcases hst with h | h
          · simp [hw] at h
          · simp only [hw] at h; exact Option.some.injEq _ _ ▸ h
        subst hwH
        exact ⟨Or.inr rfl, by simp⟩

theorem generate_single_aux_ok {H : Finset (List Int)} :
    ∀ (fuel : Nat) (gen : Finset (List Int)) (st : DupState) (env : GenEnv)
      (c : List Int) (st' : DupState) (env' : GenEnv),
      (∀ s ∈ env.samples, validSample s) →
      (∀ p ∈ env.checks, p.2 = Except.ok H) →
      (st.winning_cache = none ∨ st.winning_cache = some H) →
      generate_single_aux gen fuel st env = some (.ok (c, st', env')) →
      validCombo c ∧ is_extreme_pattern c = some false ∧ c ∉ H ∧ c ∉ gen ∧
        (st'.winning_cache = none ∨ st'.winning_cache = some H) ∧
        (∀ s ∈ env'.samples, s ∈ env.samples) ∧
        (∀ p ∈ env'.checks, p ∈ env.checks) := by
  intro fuel
  induction fuel with
  | zero => intro gen st env c st' env' _ _ _ h; simp [generate_single_aux] at h
  | succ fuel ih =>
    intro gen st env c st' env' hsamples hchecks hst h
    rcases hg : generate_combination env.samples with _ | ⟨combo0, samples'⟩
    · simp [generate_single_aux, hg] at h
    · rcases hc : env.checks with _ | ⟨⟨now, prov⟩, checks'⟩
      · simp [generate_single_aux, hg, hc] at h
      · simp only [generate_single_aux, hg, hc] at h
        have hprov : prov = Except.ok H :=
          hchecks (now, prov) (hc ▸ List.mem_cons_self _ _)
        subst hprov
        obtain ⟨hvc0, hx0, hsub⟩ :=
          generate_combination_ok env.samples combo0 samples' hg hsamples
        obtain ⟨hstinv, hnotin⟩ := is_duplicate_ok_inv combo0 st now hst
        have hsamples' : ∀ s ∈ samples', s ∈ env.samples := fun s hs => hsub.subset hs
        have hchecks' : ∀ p ∈ checks', p ∈ env.checks :=
          fun p hp => hc ▸ List.mem_cons_of_mem _ hp
        by_cases hr : (is_duplicate combo0 st now (.ok H)).result = true
        · rw [if_pos hr] at h
          obtain ⟨h1, h2, h3, h4, h5, h6, h7⟩ := ih gen
            (is_duplicate combo0 st now (.ok H)).state ⟨samples', checks'⟩ c st' env'
            (fun s hs => hsamples s (hsamples' s hs))
            (fun p hp => hchecks p (hchecks' p hp)) hstinv h
          exact ⟨h1, h2, h3, h4, h5, fun s hs => hsamples' s (h6 s hs),
            fun p hp => List.mem_cons_of_mem _ (h7 p hp)⟩
        · rw [if_neg hr] at h
          by_cases hin : combo0 ∈ gen
          · rw [if_pos hin] at h
            obtain ⟨h1, h2, h3, h4, h5, h6, h7⟩ := ih gen
              (is_duplicate combo0 st now (.ok H)).state ⟨samples', checks'⟩ c st' env'
              (fun s hs => hsamples s (hsamples' s hs))
              (fun p hp => hchecks p (hchecks' p hp)) hstinv h
            exact ⟨h1, h2, h3, h4, h5, fun s hs => hsamples' s (h6 s hs),
              fun p hp => List.mem_cons_of_mem _ (h7 p hp)⟩
          · rw [if_neg hin] at h
            rw [Option.some.injEq, Except.ok.injEq, Prod.mk.injEq] at h
            obtain ⟨rfl, h⟩ := h
            rw [Prod.mk.injEq] at h
            obtain ⟨rfl, rfl⟩ := h
            have hres : (is_duplicate combo0 st now (.ok H)).result = false :=
              Bool.eq_false_iff.mpr hr
            have hcH : combo0 ∉ H := by
              have hnp := hnotin hres
              rwa [pySorted_eq_self hvc0.2.2.2] at hnp
            exact ⟨hvc0, hx0, hcH, hin, hstinv, hsamples',
              fun p hp => List.mem_cons_of_mem _ hp⟩

theorem generate_predictions_loop_ok {H : Finset (List Int)} :
    ∀ (n : Nat) (gen : Finset (List Int)) (acc : List (List Int)) (st : DupState)
      (env : GenEnv) (res : List (List Int)) (st' : DupState) (env' : GenEnv),
      (∀ s ∈ env.samples, validSample s) →
      (∀ p ∈ env.checks, p.2 = Except.ok H) →
      (st.winning_cache = none ∨ st.winning_cache = some H) →
      (∀ c ∈ acc, c ∈ gen) →
      acc.Nodup →
      generate_predictions_loop n gen acc st env = some (.ok (res, st', env')) →
      res.length = n + acc.length ∧ res.Nodup ∧
        (∀ c ∈ res, c ∈ acc ∨
          (validCombo c ∧ is_extreme_pattern c = some false ∧ c ∉ H)) := by
  intro n
  induction n with
  | zero =>
    intro gen acc st env res st' env' _ _ _ _ hnd h
    simp only [generate_predictions_loop, Option.some.injEq, Except.ok.injEq,
      Prod.mk.injEq] at h
    obtain ⟨⟨rfl, -⟩, -⟩ := h
    refine ⟨by simp, List.nodup_reverse.mpr hnd, fun c hc => Or.inl (List.mem_reverse.mp hc)⟩
  | succ n ih =>
    intro gen acc st env res st' env' hsamples hchecks hst hacc hnd h
    rcases hg : generate_single_prediction gen st env with _ | r
    · simp [generate_predictions_loop, hg] at h
    · rcases r with e | ⟨c0, st0, env0⟩
      · simp [generate_predictions_loop, hg] at h
      · simp only [generate_predictions_loop, hg] at h
        obtain ⟨hvc0, hx0, hH0, hgen0, hst0, hs0, hc0⟩ :=
          generate_single_aux_ok max_retries gen st env c0 st0 env0
            hsamples hchecks hst hg
        have hnotacc : c0 ∉ acc := fun hmem => hgen0 (hacc c0 hmem)
        obtain ⟨hl, hn, hm⟩ := ih (insert c0 gen) (c0 :: acc) st0 env0 res st' env'
          (fun s hs => hsamples s (hs0 s hs))
          (fun p hp => hchecks p (hc0 p hp))
          hst0
          (by
            intro c hc
            rcases List.mem_cons.mp hc with rfl | hc
            · exact Finset.mem_insert_self _ _
            · exact Finset.mem_insert_of_mem (hacc c hc))
          (List.nodup_cons.mpr ⟨hnotacc, hnd⟩)
          h
        refine ⟨by simp only [List.length_cons] at hl; omega, hn, fun c hc => ?_⟩
        rcases hm c hc with hmem | hgood
        · rcases List.mem_cons.mp hmem with rfl | hmem
          · exact Or.inr ⟨hvc0, hx0, hH0⟩
          · exact Or.inl hmem
        · exact Or.inr hgood

theorem pairwise_ne_toFinset {res : List (List Int)} (hn : res.Nodup)
    (hv : ∀ c ∈ res, validCombo c) :
    List.Pairwise (fun a b => a.toFinset ≠ b.toFinset) res := by
  rw [List.pairwise_iff_forall_sublist]
  intro a b hs
  have hab : a ≠ b := List.pairwise_iff_forall_sublist.mp hn hs
  have ha : a ∈ res := hs.subset (List.mem_cons_self _ _)
  have hb : b ∈ res := hs.subset (List.mem_cons_of_mem _ (List.mem_cons_self _ _))
  intro heq
  have hpa := hv a ha
  have hpb := hv b hb
  exact hab (List.eq_of_perm_of_sorted
    (List.perm_of_nodup_nodup_toFinset_eq hpa.2.1 hpb.2.1 heq)
    hpa.2.2.2 hpb.2.2.2)

/-- C1: whenever `generate_predictions(N)` with `1 ≤ N ≤ 20` returns
normally, it returns exactly N combinations — pairwise distinct as sets —
none of which belongs to the historical winning set `H` consulted during
the call (`H` being every provider answer of the call and the content, if
any, of the starting cache). -/
theorem spec_C1_batch_unique_and_excluded :
    ∀ (n : Int) (st : DupState) (env : GenEnv) (H : Finset (List Int))
      (res : List (List Int)) (st' : DupState) (env' : GenEnv),
      1 ≤ n → n ≤ 20 →
      (∀ s ∈ env.samples, validSample s) →
      (∀ p ∈ env.checks, p.2 = Except.ok H) →
      (st.winning_cache = none ∨ st.winning_cache = some H) →
      generate_predictions (.int n) st env = some (.ok (res, st', env')) →
      res.length = n.toNat ∧
        List.Pairwise (fun a b => a.toFinset ≠ b.toFinset) res ∧
        (∀ c ∈ res, validCombo c ∧ c ∉ H) := by
  intro n st env H res st' env' h1 h20 hsamples hchecks hst h
  simp only [generate_predictions] at h
  rw [if_neg (not_not_intro ⟨h1, h20⟩)] at h
  rcases hr : generate_predictions_loop n.toNat ∅ [] st env with _ | r <;>
    rw [hr] at h
  · exact absurd h (by simp)
  · rcases r with e | ⟨res0, st0, env0⟩
    · exact absurd h (by simp)
    · rw [Option.some.injEq, Except.ok.injEq, Prod.mk.injEq] at h
      obtain ⟨rfl, h⟩ := h
      rw [Prod.mk.injEq] at h
      obtain ⟨rfl, rfl⟩ := h
      obtain ⟨hl, hn, hm⟩ := generate_predictions_loop_ok n.toNat ∅ [] st env
        res0 st0 env0 hsamples hchecks hst (by simp) List.nodup_nil hr
      have hgood : ∀ c ∈ res0, validCombo c ∧ is_extreme_pattern c = some false ∧
          c ∉ H := by
        intro c hc
        rcases hm c hc with hmem | hgood
        · simp at hmem
        · exact hgood
      refine ⟨by simpa using hl, ?_, fun c hc => ⟨(hgood c hc).1, (hgood c hc).2.2⟩⟩
      exact pairwise_ne_toFinset hn (fun c hc => (hgood c hc).1)

/-- Witness for C1: a batch of one from a one-sample environment. -/
theorem spec_C1_batch_unique_and_excluded_witness :
    ([[7, 14, 23, 28, 35, 42]] : List (List Int)).length = (1 : Int).toNat ∧
      List.Pairwise (fun a b => a.toFinset ≠ b.toFinset)
        ([[7, 14, 23, 28, 35, 42]] : List (List Int)) ∧
      (∀ c ∈ ([[7, 14, 23, 28, 35, 42]] : List (List Int)),
        validCombo c ∧ c ∉ (∅ : Finset (List Int))) :=
  spec_C1_batch_unique_and_excluded 1 ⟨none, none⟩
    ⟨[[7, 14, 23, 28, 35, 42]], [(0, .ok ∅)]⟩ ∅
    [[7, 14, 23, 28, 35, 42]] ⟨some ∅, some 0⟩ ⟨[], []⟩
    (by decide) (by decide) (by decide)
    (by intro p hp; rcases List.mem_singleton.mp hp with rfl; rfl)
    (Or.inl rfl) rfl

/-- C3: whenever `generate_combination` returns, its result has 6
pairwise-distinct values of `[1, 45]`, is sorted ascending, and is not
extreme; hence (second conjunct) every combination inside a normally
returned `generate_predictions` batch satisfies the same properties.  The
stream hypothesis is exactly what
`secrets.SystemRandom().sample(range(1, 46), 6)` guarantees. -/
theorem spec_C3_generated_combination_valid :
    (∀ (samples : List (List Int)) (combo : List Int) (rest : List (List Int)),
      (∀ s ∈ samples, validSample s) →
      generate_combination samples = some (combo, rest) →
      combo.length = 6 ∧ combo.Nodup ∧ (∀ x ∈ combo, 1 ≤ x ∧ x ≤ 45) ∧
        combo.Sorted (· ≤ ·) ∧ is_extreme_pattern combo = some false) ∧
    (∀ (n : Int) (st : DupState) (env : GenEnv) (H : Finset (List Int))
        (res : List (List Int)) (st' : DupState) (env' : GenEnv),
      (∀ s ∈ env.samples, validSample s) →
      (∀ p ∈ env.checks, p.2 = Except.ok H) →
      (st.winning_cache = none ∨ st.winning_cache = some H) →
      generate_predictions (.int n) st env = some (.ok (res, st', env')) →
      ∀ combo ∈ res, combo.length = 6 ∧ combo.Nodup ∧
        (∀ x ∈ combo, 1 ≤ x ∧ x ≤ 45) ∧ combo.Sorted (· ≤ ·) ∧
        is_extreme_pattern combo = some false) := by
  constructor
  · intro samples combo rest hv h
    obtain ⟨⟨h1, h2, h3, h4⟩, hx, -⟩ := generate_combination_ok samples combo rest h hv
    exact ⟨h1, h2, h3, h4, hx⟩
  · intro n st env H res st' env' hsamples hchecks hst h
    by_cases hn : 1 ≤ n ∧ n ≤ 20
    · simp only [generate_predictions] at h
      rw [if_neg (not_not_intro hn)] at h
      rcases hr : generate_predictions_loop n.toNat ∅ [] st env with _ | r <;>
        rw [hr] at h
      · exact absurd h (by simp)
      · rcases r with e | ⟨res0, st0, env0⟩
        · exact absurd h (by simp)
        · rw [Option.some.injEq, Except.ok.injEq, Prod.mk.injEq] at h
          obtain ⟨rfl, -⟩ := h
          obtain ⟨-, -, hm⟩ := generate_predictions_loop_ok n.toNat ∅ [] st env
            res0 st0 env0 hsamples hchecks hst (by simp) List.nodup_nil hr
          intro combo hcm
          rcases hm combo hcm with hmem | ⟨⟨h1, h2, h3, h4⟩, hx, -⟩
          · simp at hmem
          · exact ⟨h1, h2, h3, h4, hx⟩
    · simp only [generate_predictions] at h
      rw [if_pos hn] at h
      exact absurd h (by simp)

/-- Witness for C3 on a one-sample stream. -/
theorem spec_C3_generated_combination_valid_witness :
    [(7 : Int), 14, 23, 28, 35, 42].length = 6 ∧
      [(7 : Int), 14, 23, 28, 35, 42].Nodup ∧
      (∀ x ∈ [(7 : Int), 14, 23, 28, 35, 42], 1 ≤ x ∧ x ≤ 45) ∧
      [(7 : Int), 14, 23, 28, 35, 42].Sorted (· ≤ ·) ∧
      is_extreme_pattern [7, 14, 23, 28, 35, 42] = some false :=
  spec_C3_generated_combination_valid.1 [[42, 7, 23, 14, 35, 28]]
    [7, 14, 23, 28, 35, 42] [] (by decide) (by decide)

theorem is_duplicate_error_stale (combo : List Int) (now : Int)
    (h6 : combo.length = 6) :
    is_duplicate combo ⟨none, none⟩ now (.error ()) =
      ⟨true, ⟨none, none⟩, false, true⟩ := by
  have hm : ¬(combo = [] ∨ combo.length ≠ 6) := by
    rintro (rfl | hne)
    · simp at h6
    · exact hne h6
  unfold is_duplicate
  rw [if_neg hm]
  rfl

theorem generate_single_aux_exhaust :
    ∀ (fuel : Nat) (gen : Finset (List Int)) (samples : List (List Int))
      (checks : List (Int × Except Unit (Finset (List Int)))),
      (∀ s ∈ samples, validSample s ∧
        is_extreme_pattern (pySorted s) = some false) →
      (∀ p ∈ checks, p.2 = Except.error ()) →
      fuel ≤ samples.length → fuel ≤ checks.length →
      generate_single_aux gen fuel ⟨none, none⟩ ⟨samples, checks⟩ =
        some (.error ()) := by
  intro fuel
  induction fuel with
  | zero => intro gen samples checks _ _ _ _; rfl
  | succ fuel ih =>
    intro gen samples checks hs hc hls hlc
    rcases samples with _ | ⟨s, srest⟩
    · simp at hls
    · rcases checks with _ | ⟨⟨now, prov⟩, crest⟩
      · simp at hlc
      · have hsv := hs s (List.mem_cons_self _ _)
        have hprov : prov = Except.error () := hc (now, prov) (List.mem_cons_self _ _)
        subst hprov
        have hgen : generate_combination (s :: srest) = some (pySorted s, srest) := by
          simp [generate_combination, hsv.2]
        have hdup := is_duplicate_error_stale (pySorted s) now
          ((pySorted_length s).trans hsv.1.1)
        simp only [generate_single_aux, hgen, hdup, if_pos]
        exact ih gen srest crest
          (fun u hu => hs u (List.mem_cons_of_mem _ hu))
          (fun p hp => hc p (List.mem_cons_of_mem _ hp))
          (by simp only [List.length_cons] at hls; omega)
          (by simp only [List.length_cons] at hlc; omega)

theorem generate_single_aux_skip :
    ∀ (k : Nat) (gen : Finset (List Int)) (fuel : Nat)
      (pre_s : List (List Int))
      (pre_c : List (Int × Except Unit (Finset (List Int))))
      (ss : List (List Int)) (cs : List (Int × Except Unit (Finset (List Int)))),
      pre_s.length = k → pre_c.length = k →
      (∀ u ∈ pre_s, validSample u ∧
        is_extreme_pattern (pySorted u) = some false) →
      (∀ p ∈ pre_c, p.2 = Except.error ()) →
      generate_single_aux gen (fuel + k) ⟨none, none⟩
          ⟨pre_s ++ ss, pre_c ++ cs⟩ =
        generate_single_aux gen fuel ⟨none, none⟩ ⟨ss, cs⟩ := by
  intro k
  induction k with
  | zero =>
    intro gen fuel pre_s pre_c ss cs hls hlc _ _
    rw [List.length_eq_zero] at hls hlc
    subst hls; subst hlc
    rfl
  | succ k ih =>
    intro gen fuel pre_s pre_c ss cs hls hlc hv hp
    rcases pre_s with _ | ⟨s, srest⟩
    · simp at hls
    · rcases pre_c with _ | ⟨⟨now, prov⟩, crest⟩
      · simp at hlc
      · have hsv := hv s (List.mem_cons_self _ _)
        have hprov : prov = Except.error () := hp (now, prov) (List.mem_cons_self _ _)
        subst hprov
        have hgen : generate_combination (s :: (srest ++ ss)) =
            some (pySorted s, srest ++ ss) := by
          simp [generate_combination, hsv.2]
        have hdup := is_duplicate_error_stale (pySorted s) now
          ((pySorted_length s).trans hsv.1.1)
        rw [Nat.add_succ]
        simp only [List.cons_append, generate_single_aux, hgen, hdup, if_pos]
        exact ih gen fuel srest crest ss cs
          (by simp only [List.length_cons] at hls; omega)
          (by simp only [List.length_cons] at hlc; omega)
          (fun u hu => hv u (List.mem_cons_of_mem _ hu))
          (fun p hp' => hp p (List.mem_cons_of_mem _ hp'))

/-- C4: when every one of a slot's 100 candidate attempts is rejected, the
whole call raises `PredictionGenerationError` — its value is the error, so
no partial batch reaches the caller.  The retry budget is per slot: the
first conjunct holds for every in-batch set `gen`, i.e. at any slot of the
batch, and the last conjunct shows a slot accepted on its 100th attempt
after 99 rejections, whatever earlier slots consumed. -/
theorem spec_C4_retry_exhaustion :
    (∀ (gen : Finset (List Int)) (samples : List (List Int))
        (checks : List (Int × Except Unit (Finset (List Int)))),
      (∀ s ∈ samples, validSample s ∧
        is_extreme_pattern (pySorted s) = some false) →
      (∀ p ∈ checks, p.2 = Except.error ()) →
      100 ≤ samples.length → 100 ≤ checks.length →
      generate_single_prediction gen ⟨none, none⟩ ⟨samples, checks⟩ =
        some (.error ())) ∧
    (∀ (n : Int) (samples : List (List Int))
        (checks : List (Int × Except Unit (Finset (List Int)))),
      1 ≤ n → n ≤ 20 →
      (∀ s ∈ samples, validSample s ∧
        is_extreme_pattern (pySorted s) = some false) →
      (∀ p ∈ checks, p.2 = Except.error ()) →
      100 ≤ samples.length → 100 ≤ checks.length →
      generate_predictions (.int n) ⟨none, none⟩ ⟨samples, checks⟩ =
        some (.error .generation)) ∧
    (∀ (gen : Finset (List Int)) (pre_s : List (List Int))
        (pre_c : List (Int × Except Unit (Finset (List Int))))
        (s : List Int) (now : Int) (W : Finset (List Int)),
      pre_s.length = 99 → pre_c.length = 99 →
      (∀ u ∈ pre_s, validSample u ∧
        is_extreme_pattern (pySorted u) = some false) →
      (∀ p ∈ pre_c, p.2 = Except.error ()) →
      validSample s → is_extreme_pattern (pySorted s) = some false →
      pySorted s ∉ W → pySorted s ∉ gen →
      generate_single_prediction gen ⟨none, none⟩
          ⟨pre_s ++ [s], pre_c ++ [(now, Except.ok W)]⟩ =
        some (.ok (pySorted s, ⟨some W, some now⟩, ⟨[], []⟩))) := by
  have exhaust : ∀ (gen : Finset (List Int)) (samples : List (List Int))
      (checks : List (Int × Except Unit (Finset (List Int)))),
      (∀ s ∈ samples, validSample s ∧
        is_extreme_pattern (pySorted s) = some false) →
      (∀ p ∈ checks, p.2 = Except.error ()) →
      100 ≤ samples.length → 100 ≤ checks.length →
      generate_single_prediction gen ⟨none, none⟩ ⟨samples, checks⟩ =
        some (.error ()) :=
    fun gen samples checks hs hc hls hlc =>
      generate_single_aux_exhaust max_retries gen samples checks hs hc hls hlc
  refine ⟨exhaust, ?_, ?_⟩
  · intro n samples checks h1 h20 hs hc hls hlc
    obtain ⟨m, hm⟩ : ∃ m, n.toNat = m + 1 := ⟨n.toNat - 1, by omega⟩
    simp only [generate_predictions]
    rw [if_neg (not_not_intro ⟨h1, h20⟩), hm]
    simp only [generate_predictions_loop, exhaust ∅ samples checks hs hc hls hlc]
  · intro gen pre_s pre_c s now W hls hlc hv hp hvs hxs hW hgen
    have h6 : (pySorted s).length = 6 := (pySorted_length s).trans hvs.1
    have hstep := generate_single_aux_skip 99 gen 1 pre_s pre_c
      [s] [(now, Except.ok W)] hls hlc hv hp
    have hmax : max_retries = 1 + 99 := rfl
    unfold generate_single_prediction
    rw [hmax, hstep]
    have hgen1 : generate_combination [s] = some (pySorted s, []) := by
      simp [generate_combination, hxs]
    have hm : ¬(pySorted s = [] ∨ (pySorted s).length ≠ 6) := by
      rintro (hnil | hne)
      · rw [hnil] at h6; simp at h6
      · exact hne h6
    have hdup1 : is_duplicate (pySorted s) ⟨none, none⟩ now (.ok W) =
        ⟨false, ⟨some W, some now⟩, true, true⟩ := by
      unfold is_duplicate
      rw [if_neg hm]
      have hget : get_winning_combinations ⟨none, none⟩ now (.ok W) =
          .ok (W, ⟨some W, some now⟩, true) := rfl
      rw [hget]
      dsimp only
      rw [pySorted_idem, decide_eq_false hW]
    simp [generate_single_aux, hgen1, hdup1, hgen]

/-- Witness for C4: 100 rejected attempts at a single slot, concretely. -/
theorem spec_C4_retry_exhaustion_witness :
    generate_single_prediction ∅ ⟨none, none⟩
        ⟨List.replicate 100 [7, 14, 23, 28, 35, 42],
         List.replicate 100 (0, Except.error ())⟩ =
      some (.error ()) :=
  spec_C4_retry_exhaustion.1 ∅
    (List.replicate 100 [7, 14, 23, 28, 35, 42])
    (List.replicate 100 (0, Except.error ()))
    (by
      intro u hu
      rcases List.eq_of_mem_replicate hu with rfl
      exact ⟨by decide, by decide⟩)
    (by
      intro p hp
      rcases List.eq_of_mem_replicate hp with rfl
      rfl)
    (by simp) (by simp)

theorem exists_six_of_length_six {α : Type} {l : List α} (h : l.length = 6) :
    ∃ a b c d e f, l = [a, b, c, d, e, f] := by
  rcases l with _ | ⟨a, _ | ⟨b, _ | ⟨c, _ | ⟨d, _ | ⟨e, _ | ⟨f, _ | ⟨g, t⟩⟩⟩⟩⟩⟩⟩ <;>
    simp at h
  exact ⟨a, b, c, d, e, f, rfl⟩

theorem runFold_max_iff (g0 g1 g2 g3 g4 : Int) :
    5 ≤ ([g0, g1, g2, g3, g4].foldl runStep (0, 0)).2 ↔
      ((g0 = 1 ∧ g1 = 1 ∧ g2 = 1 ∧ g3 = 1) ∨
       (g1 = 1 ∧ g2 = 1 ∧ g3 = 1 ∧ g4 = 1)) := by
  by_cases h0 : g0 = 1 <;> by_cases h1 : g1 = 1 <;> by_cases h2 : g2 = 1 <;>
    by_cases h3 : g3 = 1 <;> by_cases h4 : g4 = 1 <;>
      simp [runStep, h0, h1, h2, h3, h4]

theorem gaps_toFinset_card_iff (g0 g1 g2 g3 g4 : Int) :
    [g0, g1, g2, g3, g4].toFinset.card = 1 ↔
      (g1 = g0 ∧ g2 = g0 ∧ g3 = g0 ∧ g4 = g0) := by
  constructor
  · intro h
    obtain ⟨x, hx⟩ := Finset.card_eq_one.mp h
    have hg : ∀ y ∈ [g0, g1, g2, g3, g4].toFinset, y = x :=
      fun y hy => Finset.mem_singleton.mp (hx ▸ hy)
    have m0 := hg g0 (by simp)
    have m1 := hg g1 (by simp)
    have m2 := hg g2 (by simp)
    have m3 := hg g3 (by simp)
    have m4 := hg g4 (by simp)
    exact ⟨m1.trans m0.symm, m2.trans m0.symm, m3.trans m0.symm, m4.trans m0.symm⟩
  · rintro ⟨rfl, rfl, rfl, rfl⟩
    simp

theorem specRun5_six_iff (a b c d e f : Int) :
    specRun5 [a, b, c, d, e, f] ↔
      ((b - a = 1 ∧ c - b = 1 ∧ d - c = 1 ∧ e - d = 1) ∨
       (c - b = 1 ∧ d - c = 1 ∧ e - d = 1 ∧ f - e = 1)) := by
  unfold specRun5
  constructor
  · rintro ⟨i, hi, hi4, hj⟩
    simp only [List.length_cons, List.length_nil] at hi4
    have hi2 : i < 2 := by omega
    interval_cases i
    · exact Or.inl ⟨by simpa using hj 0 (by norm_num), by simpa using hj 1 (by norm_num),
        by simpa using hj 2 (by norm_num), by simpa using hj 3 (by norm_num)⟩
    · exact Or.inr ⟨by simpa using hj 0 (by norm_num), by simpa using hj 1 (by norm_num),
        by simpa using hj 2 (by norm_num), by simpa using hj 3 (by norm_num)⟩
  · rintro (⟨h0, h1, h2, h3⟩ | ⟨h0, h1, h2, h3⟩)
    · exact ⟨0, by norm_num, by norm_num, by
        intro j hj
        interval_cases j <;> simp [h0, h1, h2, h3]⟩
    · exact ⟨1, by norm_num, by norm_num, by
        intro j hj
        interval_cases j <;> simp [h0, h1, h2, h3]⟩

theorem specArith_six_iff (a b c d e f : Int) :
    specArith [a, b, c, d, e, f] ↔
      ((c - b = b - a ∧ d - c = b - a ∧ e - d = b - a ∧ f - e = b - a) ∧
        1 < b - a) := by
  unfold specArith
  constructor
  · rintro ⟨hall, hgap⟩
    exact ⟨⟨by simpa using hall 1 (by norm_num), by simpa using hall 2 (by norm_num),
      by simpa using hall 3 (by norm_num), by simpa using hall 4 (by norm_num)⟩,
      by simpa using hgap⟩
  · rintro ⟨⟨h1, h2, h3, h4⟩, hgap⟩
    refine ⟨?_, by simpa using hgap⟩
    intro i hi
    interval_cases i <;> simp [h1, h2, h3, h4]

theorem parity_count_iff (l : List Int) (hl : l.length = 6) :
    (l.countP (fun n => decide (n % 2 = 1)) = 0 ∨
      l.countP (fun n => decide (n % 2 = 1)) = 6) ↔
      ((∀ x ∈ l, x % 2 = 1) ∨ (∀ x ∈ l, x % 2 = 0)) := by
  rw [List.countP_eq_zero]
  have h6 : (6 : Nat) = l.length := hl.symm
  rw [h6, List.countP_eq_length]
  simp only [decide_eq_true_eq]
  constructor
  · rintro (h | h)
    · refine Or.inr fun x hx => ?_
      have hx2 := h x hx
      omega
    · exact Or.inl h
  · rintro (h | h)
    · exact Or.inr h
    · refine Or.inl fun x hx => ?_
      have hx2 := h x hx
      omega

theorem extremeRules_true_iff (combination : List Int) (g0 g1 g2 g3 g4 : Int) :
    extremeRules combination g0 g1 g2 g3 g4 = true ↔
      (5 ≤ ([g0, g1, g2, g3, g4].foldl runStep (0, 0)).2 ∨
       ([g0, g1, g2, g3, g4].toFinset.card = 1 ∧ 1 < g0) ∨
       (combination.sum < 80 ∨ 200 < combination.sum) ∨
       (combination.countP (fun n => decide (n % 2 = 1)) = 0 ∨
        combination.countP (fun n => decide (n % 2 = 1)) = 6) ∨
       5 ≤ max (combination.countP (fun n => decide (1 ≤ n ∧ n ≤ 10)))
         (max (combination.countP (fun n => decide (11 ≤ n ∧ n ≤ 20)))
           (max (combination.countP (fun n => decide (21 ≤ n ∧ n ≤ 30)))
             (max (combination.countP (fun n => decide (31 ≤ n ∧ n ≤ 40)))
               (combination.countP (fun n => decide (41 ≤ n ∧ n ≤ 45))))))) := by
  unfold extremeRules
  dsimp only
  split_ifs with h1 h2 h3 h4 h5
  · exact iff_of_true rfl (Or.inl h1)
  · exact iff_of_true rfl (Or.inr (Or.inl h2))
  · exact iff_of_true rfl (Or.inr (Or.inr (Or.inl h3)))
  · exact iff_of_true rfl (Or.inr (Or.inr (Or.inr (Or.inl h4))))
  · exact iff_of_true rfl (Or.inr (Or.inr (Or.inr (Or.inr h5))))
  · exact iff_of_false (by simp) (by tauto)

/-- C2: for every list of 6 distinct integers of `[1, 45]`,
`is_extreme_pattern` answers `true` exactly when one of the five rules of
the specification holds of the ascending sort, and the three concrete
examples of the spec evaluate as stated. -/
theorem spec_C2_extreme_pattern_rules :
    (∀ combo : List Int, combo.length = 6 → combo.Nodup →
      (∀ x ∈ combo, 1 ≤ x ∧ x ≤ 45) →
      (is_extreme_pattern combo = some true ↔ extremeSpec combo)) ∧
    is_extreme_pattern [1, 2, 3, 4, 5, 10] = some true ∧
    is_extreme_pattern [5, 10, 15, 20, 25, 30] = some true ∧
    is_extreme_pattern [7, 14, 23, 28, 35, 42] = some false := by
  refine ⟨?_, by decide, by decide, by decide⟩
  intro combo hlen hnd hrange
  have hslen : (pySorted combo).length = 6 := (pySorted_length combo).trans hlen
  obtain ⟨a, b, c, d, e, f, hs⟩ := exists_six_of_length_six hslen
  have e0 : adjGap (pySorted combo) 0 = some (b - a) := by rw [hs]; rfl
  have e1 : adjGap (pySorted combo) 1 = some (c - b) := by rw [hs]; rfl
  have e2 : adjGap (pySorted combo) 2 = some (d - c) := by rw [hs]; rfl
  have e3 : adjGap (pySorted combo) 3 = some (e - d) := by rw [hs]; rfl
  have e4 : adjGap (pySorted combo) 4 = some (f - e) := by rw [hs]; rfl
  have hcp : ∀ p : Int → Bool, combo.countP p = [a, b, c, d, e, f].countP p :=
    fun p => by rw [← hs]; exact (pySorted_countP combo p).symm
  have hsum : combo.sum = [a, b, c, d, e, f].sum := by
    rw [← hs]; exact (pySorted_sum combo).symm
  rw [show is_extreme_pattern combo =
      some (extremeRules combo (b - a) (c - b) (d - c) (e - d) (f - e)) from by
    simp only [is_extreme_pattern, e0, e1, e2, e3, e4]]
  simp only [Option.some.injEq]
  rw [extremeRules_true_iff]
  simp only [extremeSpec]
  rw [hs]
  rw [specRun5_six_iff, specArith_six_iff, runFold_max_iff, gaps_toFinset_card_iff]
  simp only [hcp, hsum]
  rw [parity_count_iff [a, b, c, d, e, f] (by simp)]
  simp only [le_max_iff]

/-- Witness for C2: the theorem's equivalence at an all-even combination. -/
theorem spec_C2_extreme_pattern_rules_witness :
    is_extreme_pattern [2, 4, 6, 8, 20, 40] = some true ↔
      extremeSpec [2, 4, 6, 8, 20, 40] :=
  spec_C2_extreme_pattern_rules.1 [2, 4, 6, 8, 20, 40]
    (by decide) (by decide) (by decide)
